import Mathlib

/-!
Shallow embedding of the nextweight_file crate (src/src/lib.rs).

Conventions of the embedding:
* Machine integers (u32, u64, usize) are modelled as Nat.  Fields that are
  u32/u64 in Rust carry their range (< 2 ^ 32, < 2 ^ 64) as hypotheses where
  a theorem needs it.
* 32-bit floats are modelled by their 4-byte IEEE-754 bit pattern (a Nat);
  the codec only moves the bit patterns around, and the one place the code
  compares floats (the fill-value test) uses IEEE equality, modelled by
  NWT.f32Eq below.
* Fallible Rust code returns Result<T, String>; that becomes Except String T.
  A panic (unwrap of None/Err, or an out-of-range slice index) is modelled
  by an outer Option layer: none = the call aborts instead of returning.
* The netcdf crate, serde_json and the filesystem are external collaborators
  (spec section 1); their observable answers are inputs of the embedded
  functions (the NetcdfFile record, the jsonEnc/jsonDec arguments, the byte
  buffer handed to from_nwt, the createOk flag of serialize_to_file).
* Vec<T> is List T; HashMap<String, V> is an association list with
  HashMap-style insert/get (insert replaces the value of an existing key).
-/

namespace NWT

/-- Little-endian byte encoding: `toLeBytes w n` is the `w`-byte
little-endian encoding of `n % 256 ^ w`, modelling Rust's
`(n as uNN).to_le_bytes()`. -/
def toLeBytes : Nat → Nat → List Nat
  | 0, _ => []
  | w + 1, n => (n % 256) :: toLeBytes w (n / 256)

/-- Little-endian byte decoding, modelling `uNN::from_le_bytes`. -/
def fromLeBytes : List Nat → Nat
  | [] => 0
  | b :: bs => b + 256 * fromLeBytes bs

/-- IEEE-754 binary32 NaN test on a bit pattern: exponent all ones and
nonzero mantissa. -/
def f32IsNan (b : Nat) : Bool :=
  (b / 2 ^ 23) % 2 ^ 8 == 255 && b % 2 ^ 23 != 0

/-- IEEE-754 binary32 zero test on a bit pattern: +0.0 or -0.0. -/
def f32IsZero (b : Nat) : Bool :=
  b == 0 || b == 2 ^ 31

/-- IEEE-754 equality of two f32 bit patterns, modelling Rust's `==` on f32:
NaN equals nothing, +0.0 equals -0.0, and otherwise two finite/infinite
values are equal exactly when their encodings coincide. -/
def f32Eq (a b : Nat) : Bool :=
  !f32IsNan a && !f32IsNan b && (a == b || (f32IsZero a && f32IsZero b))

/-- `JsonData` (src/src/lib.rs:19-24): the Metadata Store.
`per_variable_attrs` is Rust's `HashMap<String, Vec<(String, String)>>`,
modelled as an association list with HashMap insert/get semantics. -/
structure JsonData where
  global_attrs : List (String × String)
  per_variable_attrs : List (String × List (String × String))
  polyids : List String
deriving DecidableEq, Repr

/-- One sparse point `(u32, u32, f32, f32, f32)` of a `PolyidEntry`
(src/src/lib.rs:29); the three float fields are carried as bit patterns. -/
structure GridPoint where
  latIdx : Nat
  lonIdx : Nat
  lat : Nat
  lon : Nat
  weight : Nat
deriving DecidableEq, Repr

/-- `PolyidEntry` (src/src/lib.rs:26-30): one region's ordered point list. -/
structure PolyidEntry where
  data : List GridPoint
deriving DecidableEq, Repr

/-- `NextWeightFile` (src/src/lib.rs:10-17): the Aggregate Model. -/
structure NextWeightFile where
  json_data : JsonData
  lat_len : Nat
  lon_len : Nat
  polyid_gridpoints : List PolyidEntry
  lookup_table : List (Nat × Nat)
deriving DecidableEq, Repr

/-- HashMap lookup, modelling `HashMap::get`. -/
def alistGet {V : Type} (k : String) : List (String × V) → Option V
  | [] => none
  | (k', v) :: rest => if k' = k then some v else alistGet k rest

/-- HashMap membership, modelling `HashMap::contains_key`. -/
def alistContains {V : Type} (k : String) : List (String × V) → Bool
  | [] => false
  | (k', _) :: rest => if k' = k then true else alistContains k rest

/-- HashMap insertion, modelling `HashMap::insert`: the value of an existing
key is replaced, a new key is added. -/
def alistInsert {V : Type} (k : String) (v : V) : List (String × V) → List (String × V)
  | [] => [(k, v)]
  | (k', v') :: rest =>
    if k' = k then (k, v) :: rest else (k', v') :: alistInsert k v rest

/-- In-place update of an existing key's value, modelling mutation through
`HashMap::get_mut`. -/
def alistModify {V : Type} (k : String) (f : V → V) : List (String × V) → List (String × V)
  | [] => []
  | (k', v) :: rest =>
    if k' = k then (k', f v) :: rest else (k', v) :: alistModify k f rest

/-- `JsonData::new` (src/src/lib.rs:369-375). -/
def JsonData.new : JsonData :=
  { global_attrs := [], per_variable_attrs := [], polyids := [] }

/-- `JsonData::add_global_attr` (src/src/lib.rs:378-380): unconditional
append, duplicate names allowed. -/
def JsonData.add_global_attr (jd : JsonData) (key value : String) : JsonData :=
  { jd with global_attrs := jd.global_attrs ++ [(key, value)] }

/-- `JsonData::add_variable` (src/src/lib.rs:383-385): a plain
`HashMap::insert` of an empty attribute vector. -/
def JsonData.add_variable (jd : JsonData) (variable_name : String) : JsonData :=
  { jd with per_variable_attrs := alistInsert variable_name [] jd.per_variable_attrs }

/-- `JsonData::add_variable_attr` (src/src/lib.rs:389-397): registers the
variable if absent, then appends the pair to its attribute vector. -/
def JsonData.add_variable_attr (jd : JsonData) (var_name key value : String) : JsonData :=
  let jd' := if alistContains var_name jd.per_variable_attrs then jd
             else jd.add_variable var_name
  { jd' with per_variable_attrs :=
      alistModify var_name (fun l => l ++ [(key, value)]) jd'.per_variable_attrs }

/-- `JsonData::add_polyid` (src/src/lib.rs:400-402). -/
def JsonData.add_polyid (jd : JsonData) (polyid : String) : JsonData :=
  { jd with polyids := jd.polyids ++ [polyid] }

/-- `netcdf::AttrValue` as used by the code: the two string-bearing variants
and a stand-in for every other variant (which the code rejects). -/
inductive AttrValue where
  | Str : String → AttrValue
  | Strs : List String → AttrValue
  | OtherType : AttrValue
deriving DecidableEq, Repr

/-- One netcdf attribute: its name and its (already fetched) value. -/
structure NcAttr where
  name : String
  value : AttrValue
deriving DecidableEq, Repr

/-- One netcdf variable as enumerated by `weight_netcdf.variables()`:
its name and its attribute list. -/
structure NcVariable where
  name : String
  attrs : List NcAttr
deriving DecidableEq, Repr

/-- The answers of the netcdf collaborator consumed by
`NextWeightFile::from_weight_file` (src/src/lib.rs:34-124).  `none` in an
Option field means the corresponding lookup fails, which the code meets
with `.unwrap()`, i.e. a panic. -/
structure NetcdfFile where
  /-- `weight_netcdf.attributes()`. -/
  attributes : List NcAttr
  /-- `weight_netcdf.variables()` (named `vars` here because `variables` is
  a reserved token in Lean). -/
  vars : List NcVariable
  /-- the string values of `weight_netcdf.variable("polyid")`
  (`string_value i` for `i` below its length); `none` = variable absent. -/
  polyidVar : Option (List String)
  /-- `weight_netcdf.variable("regridweights")`: its declared f32 fill value
  (bit pattern; inner `none` = `fill_value` fails or is undeclared) and the
  flat row-major 2-D f32 slice `values_arr((polyid, .., ..))` per region. -/
  regridVar : Option (Option Nat × List (List Nat))
  /-- f32 values of `weight_netcdf.variable("lat")`; `none` = absent. -/
  latVar : Option (List Nat)
  /-- f32 values of `weight_netcdf.variable("lon")`; `none` = absent. -/
  lonVar : Option (List Nat)
  /-- `weight_netcdf.dimension("lat")` length; `none` = absent. -/
  latDim : Option Nat
  /-- `weight_netcdf.dimension("lon")` length; `none` = absent. -/
  lonDim : Option Nat

/-- The `match attr.value() { Str / Strs / _ }` arms shared by both
attribute loops (src/src/lib.rs:41-45 and 56-60).  `Strs a` takes `a[0]`,
which panics on an empty vector (`none`). -/
def attrString (name : String) (v : AttrValue) : Option (Except String String) :=
  match v with
  | .Str a => some (.ok a)
  | .Strs [] => none
  | .Strs (a :: _) => some (.ok a)
  | .OtherType => some (.error ("Unexpected attribute type for " ++ name))

/-- The global-attribute loop of `from_weight_file` (src/src/lib.rs:40-48). -/
def harvestGlobals : List NcAttr → JsonData → Option (Except String JsonData)
  | [], jd => some (.ok jd)
  | a :: rest, jd =>
    match attrString a.name a.value with
    | none => none
    | some (.error e) => some (.error e)
    | some (.ok s) => harvestGlobals rest (jd.add_global_attr a.name s)

/-- The inner attribute loop over one variable (src/src/lib.rs:54-64):
attributes named "_FillValue" are skipped. -/
def harvestVarAttrs (var_name : String) : List NcAttr → JsonData → Option (Except String JsonData)
  | [], jd => some (.ok jd)
  | a :: rest, jd =>
    if a.name ≠ "_FillValue" then
      match attrString a.name a.value with
      | none => none
      | some (.error e) => some (.error e)
      | some (.ok s) => harvestVarAttrs var_name rest (jd.add_variable_attr var_name a.name s)
    else harvestVarAttrs var_name rest jd

/-- The variable loop of `from_weight_file` (src/src/lib.rs:51-65). -/
def harvestVars : List NcVariable → JsonData → Option (Except String JsonData)
  | [], jd => some (.ok jd)
  | v :: rest, jd =>
    match harvestVarAttrs v.name v.attrs (jd.add_variable v.name) with
    | none => none
    | some (.error e) => some (.error e)
    | some (.ok jd') => harvestVars rest jd'

/-- The polyid loop of `from_weight_file` (src/src/lib.rs:70-72). -/
def addPolyids (jd : JsonData) : List String → JsonData
  | [] => jd
  | p :: ps => addPolyids (jd.add_polyid p) ps

/-- The inner (longitude) extraction loop of `from_weight_file`
(src/src/lib.rs:93-100), iterated over the column indices `cols`:
`dat_slice[lat_idx * lon_len + lon_idx]` (panic when out of range), keep the
cell when it differs from the fill value under IEEE f32 equality, pairing it
with `lat_vals[lat_idx]` and `lon_vals[lon_idx]` (panics when out of range). -/
def extractRowGo (lonLen fill r : Nat) (latVals lonVals slice : List Nat) :
    List Nat → List GridPoint → Option (List GridPoint)
  | [], acc => some acc
  | c :: cs, acc =>
    match slice.get? (r * lonLen + c) with
    | none => none
    | some v =>
      if f32Eq v fill then extractRowGo lonLen fill r latVals lonVals slice cs acc
      else
        match latVals.get? r, lonVals.get? c with
        | some la, some lo =>
          extractRowGo lonLen fill r latVals lonVals slice cs
            (acc ++ [{ latIdx := r, lonIdx := c, lat := la, lon := lo, weight := v }])
        | _, _ => none

/-- The outer (latitude) extraction loop of `from_weight_file`
(src/src/lib.rs:92-101), iterated over the row indices `rows`. -/
def extractRegionGo (lonLen fill : Nat) (latVals lonVals slice : List Nat) :
    List Nat → List GridPoint → Option (List GridPoint)
  | [], acc => some acc
  | r :: rs, acc =>
    match extractRowGo lonLen fill r latVals lonVals slice (List.range lonLen) acc with
    | none => none
    | some acc' => extractRegionGo lonLen fill latVals lonVals slice rs acc'

/-- One region's sparse extraction (src/src/lib.rs:88-101): the doubly
nested loop over `0..lat_len` and `0..lon_len` starting from an empty
`PolyidEntry`. -/
def extractRegion (latLen lonLen fill : Nat) (latVals lonVals slice : List Nat) :
    Option (List GridPoint) :=
  extractRegionGo lonLen fill latVals lonVals slice (List.range latLen) []

/-- The per-polyid loop of `from_weight_file` (src/src/lib.rs:86-105),
iterated over the region indices `ps`: fetch the region's flat slice
(`values_arr` fails / panics when the index is out of the data's first
dimension), extract, and push the entry. -/
def extractAllGo (latLen lonLen fill : Nat) (latVals lonVals : List Nat)
    (slices : List (List Nat)) : List Nat → Option (List PolyidEntry)
  | [] => some []
  | p :: ps =>
    match slices.get? p with
    | none => none
    | some slice =>
      match extractRegion latLen lonLen fill latVals lonVals slice with
      | none => none
      | some pts =>
        match extractAllGo latLen lonLen fill latVals lonVals slices ps with
        | none => none
        | some rest => some ({ data := pts } :: rest)

/-- All regions' sparse extraction, over `0..polyid_var.len()`. -/
def extractAll (numPolyids latLen lonLen fill : Nat) (latVals lonVals : List Nat)
    (slices : List (List Nat)) : Option (List PolyidEntry) :=
  extractAllGo latLen lonLen fill latVals lonVals slices (List.range numPolyids)

/-- The lookup-table loop of `from_weight_file` (src/src/lib.rs:108-114)
with the running total made explicit: push `(running_total, len)` for each
entry, then add the entry's length to the running total. -/
def buildLookupGo : List PolyidEntry → Nat → List (Nat × Nat)
  | [], _ => []
  | e :: es, running => (running, e.data.length) :: buildLookupGo es (running + e.data.length)

/-- The Lookup Table Builder (src/src/lib.rs:107-114). -/
def buildLookupTable (entries : List PolyidEntry) : List (Nat × Nat) :=
  buildLookupGo entries 0

/-- `NextWeightFile::from_weight_file` (src/src/lib.rs:34-124) over the
netcdf collaborator's answers.  `none` models a panic (an `.unwrap()` that
fails or an out-of-range index); `some (.error e)` models `Err(e)`. -/
def from_weight_file (nc : NetcdfFile) : Option (Except String NextWeightFile) :=
  match harvestGlobals nc.attributes JsonData.new with
  | none => none
  | some (.error e) => some (.error e)
  | some (.ok jd1) =>
    match harvestVars nc.vars jd1 with
    | none => none
    | some (.error e) => some (.error e)
    | some (.ok jd2) =>
      match nc.polyidVar with
      | none => none
      | some polyids =>
        let jd3 := addPolyids jd2 polyids
        match nc.regridVar, nc.latVar, nc.lonVar, nc.latDim, nc.lonDim with
        | some (fillOpt, slices), some lat_vals, some lon_vals, some lat_len, some lon_len =>
          match fillOpt with
          | none => none
          | some fill =>
            match extractAll polyids.length lat_len lon_len fill lat_vals lon_vals slices with
            | none => none
            | some gps =>
              some (.ok { json_data := jd3, lat_len := lat_len, lon_len := lon_len,
                          polyid_gridpoints := gps,
                          lookup_table := buildLookupTable gps })
        | _, _, _, _, _ => none

/-- The 4 magic bytes `b"NEWT"`. -/
def magicBytes : List Nat := [78, 69, 87, 84]

/-- The five `to_le_bytes` writes for one point
(src/src/lib.rs:302-308): two u32 fields then three f32 bit patterns,
4 little-endian bytes each. -/
def encodePoint (p : GridPoint) : List Nat :=
  toLeBytes 4 p.latIdx ++ toLeBytes 4 p.lonIdx ++
  toLeBytes 4 p.lat ++ toLeBytes 4 p.lon ++ toLeBytes 4 p.weight

/-- One region's flattened point bytes (src/src/lib.rs:300-309). -/
def encodeRegion (e : PolyidEntry) : List Nat :=
  (e.data.map encodePoint).flatten

/-- The whole point section: regions in order (src/src/lib.rs:300-309). -/
def encodeGridpoints (l : List PolyidEntry) : List Nat :=
  (l.map encodeRegion).flatten

/-- The lookup-table section (src/src/lib.rs:294-297): per entry, the u64
offset then the u64 count, little-endian. -/
def encodeLookup : List (Nat × Nat) → List Nat
  | [] => []
  | (o, c) :: rest => toLeBytes 8 o ++ toLeBytes 8 c ++ encodeLookup rest

/-- The byte sequence `NextWeightFile::serialize_to_file`
(src/src/lib.rs:260-313) writes on its success path, with the serde_json
collaborator abstracted as `jsonEnc` (the UTF-8 bytes of
`serde_json::to_string(&self.json_data)`): magic, then six u64
little-endian header fields (json length, polyid count, lat length, lon
length, json offset = size_of::<u64>() * 6 + 4 = 52, lookup offset =
json offset + json length), then the json blob, the lookup table and the
flattened points. -/
def serialize_bytes (jsonEnc : JsonData → List Nat) (m : NextWeightFile) : List Nat :=
  magicBytes
  ++ toLeBytes 8 (jsonEnc m.json_data).length
  ++ toLeBytes 8 m.json_data.polyids.length
  ++ toLeBytes 8 m.lat_len
  ++ toLeBytes 8 m.lon_len
  ++ toLeBytes 8 52
  ++ toLeBytes 8 (52 + (jsonEnc m.json_data).length)
  ++ jsonEnc m.json_data
  ++ encodeLookup m.lookup_table
  ++ encodeGridpoints m.polyid_gridpoints

/-- The outcome of `NextWeightFile::serialize_to_file`
(src/src/lib.rs:260-313) as seen by its caller: the one non-panicking
failure is `std::fs::File::create` failing (src/src/lib.rs:267-270), which
becomes a typed `Err`; every subsequent `write` failure is an `.unwrap()`
panic (not modelled, orthogonal to the claims).  `createOk` and `ioErr`
are the filesystem collaborator's answer. -/
def serialize_to_file (createOk : Bool) (ioErr : String) : Except String Unit :=
  if createOk then .ok ()
  else .error ("Failed to open file for serialization: " ++ ioErr)

/-- `&data[off..off+n]` on a byte buffer: `some` of the n bytes when the
range is inside the buffer, `none` (panic) otherwise. -/
def readBytes (d : List Nat) (off n : Nat) : Option (List Nat) :=
  if off + n ≤ d.length then some ((d.drop off).take n) else none

/-- A u64 field read: 8 bytes then `u64::from_le_bytes`. -/
def readU64 (d : List Nat) (off : Nat) : Option Nat :=
  (readBytes d off 8).map fromLeBytes

/-- A u32/f32 field read: 4 bytes then `from_le_bytes`. -/
def readU32 (d : List Nat) (off : Nat) : Option Nat :=
  (readBytes d off 4).map fromLeBytes

/-- The lookup-table parse loop (src/src/lib.rs:180-187) over the
`16 * n`-byte buffer copied out of the file: `n` steps of 16 bytes, each
yielding an (offset, count) pair of u64s. -/
def parseLookup : Nat → List Nat → List (Nat × Nat)
  | 0, _ => []
  | n + 1, b =>
    (fromLeBytes (b.take 8), fromLeBytes ((b.drop 8).take 8)) :: parseLookup n (b.drop 16)

/-- One 20-byte point record read (src/src/lib.rs:198-220): five 4-byte
fields at `co`, `co+4`, ..., `co+16`. -/
def readPoint (d : List Nat) (co : Nat) : Option GridPoint :=
  match readU32 d co, readU32 d (co + 4), readU32 d (co + 8),
        readU32 d (co + 12), readU32 d (co + 16) with
  | some a, some b, some c, some e, some f =>
    some { latIdx := a, lonIdx := b, lat := c, lon := e, weight := f }
  | _, _, _, _, _ => none

/-- The per-region point loop (src/src/lib.rs:197-221): read `n` 20-byte
points starting at `co` (the cursor advances 4 bytes per field). -/
def readPoints (d : List Nat) : Nat → Nat → Option (List GridPoint)
  | _, 0 => some []
  | co, n + 1 =>
    match readPoint d co with
    | none => none
    | some p =>
      match readPoints d (co + 20) n with
      | none => none
      | some ps => some (p :: ps)

/-- The region loop of the decoder (src/src/lib.rs:190-225): one
`PolyidEntry` per lookup-table count, read sequentially (after a region of
`n` points the cursor stands `20 * n` bytes further). -/
def readRegions (d : List Nat) : Nat → List Nat → Option (List PolyidEntry)
  | _, [] => some []
  | co, n :: ns =>
    match readPoints d co n with
    | none => none
    | some ps =>
      match readRegions d (co + 20 * n) ns with
      | none => none
      | some rest => some ({ data := ps } :: rest)

/-- The body of `NextWeightFile::from_nwt` after the magic check
(src/src/lib.rs:140-230).  Every failure past the magic check is an
`.unwrap()` or slice panic, hence plain `Option`: the six u64 header
fields at offsets 4..52, the json blob at the declared offset/length
(decoded by the serde_json collaborator `jsonDec`, whose UTF-8 or parse
failures the code unwraps), the lookup table (`num_polyids` 16-byte
pairs at the declared lookup offset), and the point records, grouped by
the lookup-table counts, starting right after the lookup table. -/
def from_nwt_body (jsonDec : List Nat → Option JsonData) (d : List Nat) :
    Option NextWeightFile := do
  let json_len ← readU64 d 4
  let num_polyids ← readU64 d 12
  let lat_len ← readU64 d 20
  let lon_len ← readU64 d 28
  let json_offset ← readU64 d 36
  let lookup_offset ← readU64 d 44
  let jsonBytes ← readBytes d json_offset json_len
  let jd ← jsonDec jsonBytes
  let lookupBytes ← readBytes d lookup_offset (num_polyids * 16)
  let lookup_table := parseLookup num_polyids lookupBytes
  let gps ← readRegions d (lookup_offset + num_polyids * 16) (lookup_table.map Prod.snd)
  pure { json_data := jd, lat_len := lat_len, lon_len := lon_len,
         polyid_gridpoints := gps, lookup_table := lookup_table }

/-- `NextWeightFile::from_nwt` (src/src/lib.rs:127-233) on the file's byte
buffer: check the 4 magic bytes first (a buffer shorter than 4 bytes
panics, a wrong magic is the typed error "Invalid file format"), then run
the body. -/
def from_nwt (jsonDec : List Nat → Option JsonData) (d : List Nat) :
    Option (Except String NextWeightFile) :=
  match readBytes d 0 4 with
  | none => none
  | some m =>
    if m = magicBytes then (from_nwt_body jsonDec d).map Except.ok
    else some (.error "Invalid file format")

/-- `NextWeightFile::open` (src/src/lib.rs:237-257): read (up to) the first
4 bytes of the file (missing bytes keep the buffer's 0 initializer); on
the magic token delegate to `from_nwt` on the full contents, otherwise run
`from_weight_file` on the dense source (`?` propagates its error), then
`serialize_to_file` the result to the sibling ".nwt" path (`?` propagates
its error too), and only then return the model. -/
def openFile (contents : List Nat) (nc : NetcdfFile) (createOk : Bool) (ioErr : String)
    (jsonDec : List Nat → Option JsonData) : Option (Except String NextWeightFile) :=
  if contents.take 4 ++ List.replicate (4 - contents.length) 0 = magicBytes then
    from_nwt jsonDec contents
  else
    match from_weight_file nc with
    | none => none
    | some (.error e) => some (.error e)
    | some (.ok a) =>
      match serialize_to_file createOk ioErr with
      | .error e => some (.error e)
      | .ok _ => some (.ok a)

/-- The accumulation loop of `NextWeightFile::get_raw_gridpoints`
(src/src/lib.rs:350-360): push every point of every region in order. -/
def rawGridpointsGo : List PolyidEntry → List GridPoint
  | [] => []
  | r :: rs => r.data ++ rawGridpointsGo rs

/-- `NextWeightFile::get_raw_gridpoints` (src/src/lib.rs:346-363). -/
def get_raw_gridpoints (m : NextWeightFile) : List GridPoint :=
  rawGridpointsGo m.polyid_gridpoints

/-- The sparse-extraction contract in the words of the claim (spec section
4.2), for comparison with `extractRegion`: one point per cell of the dense
row-major grid whose value differs from the fill value under IEEE f32
equality, paired with its row and column coordinates, rows outer, columns
inner, and nothing else. -/
def extractRegionSpec (latLen lonLen fill : Nat) (latVals lonVals slice : List Nat) :
    List GridPoint :=
  (List.range latLen).flatMap fun r =>
    (List.range lonLen).filterMap fun c =>
      let v := slice.getD (r * lonLen + c) 0
      if f32Eq v fill then none
      else some { latIdx := r, lonIdx := c,
                  lat := latVals.getD r 0, lon := lonVals.getD c 0, weight := v }

/-- Range invariant of the Rust u32/f32 fields of one point. -/
def ptBounded (p : GridPoint) : Prop :=
  p.latIdx < 2 ^ 32 ∧ p.lonIdx < 2 ^ 32 ∧ p.lat < 2 ^ 32 ∧ p.lon < 2 ^ 32 ∧ p.weight < 2 ^ 32

instance (p : GridPoint) : Decidable (ptBounded p) := by
  unfold ptBounded; infer_instance

/-- A serde_json stand-in whose parses always fail; usable wherever the
decoder is never consulted. -/
def jsonDecNone : List Nat → Option JsonData := fun _ => none

/-- Concrete metadata store for witnesses: one global attribute, one
variable, two region ids. -/
def jdEx : JsonData :=
  { global_attrs := [("title", "t")], per_variable_attrs := [("regridweights", [])],
    polyids := ["p0", "p1"] }

/-- Concrete stand-in for the serde_json encoder, injective on the one
store the witnesses serialize. -/
def jsonEncEx : JsonData → List Nat := fun jd => if jd = jdEx then [0] else [1]

/-- Concrete stand-in for the serde_json decoder, inverse of `jsonEncEx`
at `jdEx`. -/
def jsonDecEx : List Nat → Option JsonData := fun b => if b = [0] then some jdEx else none

/-- The spec section 8 concrete scenario as a netcdf collaborator record:
2 regions, a 2x2 grid, fill bit pattern 100, region 0 values
[[fill, 5], [3, fill]], region 1 all fill (5, 3, 10, 11, 20, 21 are
arbitrary non-NaN f32 bit patterns). -/
def ncEx : NetcdfFile :=
  { attributes := [⟨"title", .Str "t"⟩], vars := [⟨"regridweights", []⟩],
    polyidVar := some ["p0", "p1"],
    regridVar := some (some 100, [[100, 5, 3, 100], [100, 100, 100, 100]]),
    latVar := some [10, 11], lonVar := some [20, 21],
    latDim := some 2, lonDim := some 2 }

/-- The Aggregate Model `from_weight_file` builds from `ncEx`. -/
def mEx : NextWeightFile :=
  { json_data := jdEx, lat_len := 2, lon_len := 2,
    polyid_gridpoints := [⟨[⟨0, 1, 10, 21, 5⟩, ⟨1, 0, 11, 20, 3⟩]⟩, ⟨[]⟩],
    lookup_table := [(0, 2), (2, 0)] }

/-- A dense source whose required "polyid" variable is absent and whose
attributes are all well typed. -/
def ncMissingPolyid : NetcdfFile :=
  { attributes := [], vars := [],
    polyidVar := none,
    regridVar := some (some 100, []),
    latVar := some [], lonVar := some [],
    latDim := some 0, lonDim := some 0 }

/-- A metadata store in which variable "v" is registered and already owns
one attribute. -/
def jdVarAttr : JsonData :=
  { global_attrs := [], per_variable_attrs := [("v", [("units", "m")])], polyids := [] }

/-- A dense source with one well-typed global attribute whose required
"polyid" variable is absent. -/
def ncMissingPolyidAttr : NetcdfFile :=
  { attributes := [⟨"title", .Str "t"⟩], vars := [],
    polyidVar := none,
    regridVar := some (some 100, []),
    latVar := some [], lonVar := some [],
    latDim := some 0, lonDim := some 0 }

lemma toLeBytes_length (w n : Nat) : (toLeBytes w n).length = w := by
  induction w generalizing n with
  | zero => rfl
  | succ w ih => simp [toLeBytes, ih]

lemma fromLeBytes_toLeBytes (w n : Nat) (h : n < 256 ^ w) :
    fromLeBytes (toLeBytes w n) = n := by
  induction w generalizing n with
  | zero =>
    simp only [pow_zero, Nat.lt_one_iff] at h
    simp [h, toLeBytes, fromLeBytes]
  | succ w ih =>
    have hd : n / 256 < 256 ^ w := by
      rw [pow_succ'] at h
      exact Nat.div_lt_of_lt_mul h
    simp [toLeBytes, fromLeBytes, ih _ hd, Nat.mod_add_div]

lemma readBytes_eq_of_drop {d pre rest : List Nat} {co n : Nat}
    (h : d.drop co = pre ++ rest) (hn : pre.length = n) (hco : co + n ≤ d.length) :
    readBytes d co n = some pre := by
  unfold readBytes
  rw [if_pos hco, h, List.take_left' hn]

lemma drop_of_drop {d pre rest : List Nat} {co n : Nat}
    (h : d.drop co = pre ++ rest) (hn : pre.length = n) :
    d.drop (co + n) = rest := by
  rw [← List.drop_drop, h, List.drop_left' hn]

lemma readU64_eq_of_drop {d rest : List Nat} {co v : Nat}
    (h : d.drop co = toLeBytes 8 v ++ rest) (hv : v < 2 ^ 64) (hco : co + 8 ≤ d.length) :
    readU64 d co = some v := by
  unfold readU64
  rw [readBytes_eq_of_drop h (toLeBytes_length 8 v) hco]
  have h8 : v < 256 ^ 8 := by
    rw [show (256 : Nat) ^ 8 = 2 ^ 64 by norm_num]
    exact hv
  simp [fromLeBytes_toLeBytes 8 v h8]

lemma readU32_eq_of_drop {d rest : List Nat} {co v : Nat}
    (h : d.drop co = toLeBytes 4 v ++ rest) (hv : v < 2 ^ 32) (hco : co + 4 ≤ d.length) :
    readU32 d co = some v := by
  unfold readU32
  rw [readBytes_eq_of_drop h (toLeBytes_length 4 v) hco]
  have h4 : v < 256 ^ 4 := by
    rw [show (256 : Nat) ^ 4 = 2 ^ 32 by norm_num]
    exact hv
  simp [fromLeBytes_toLeBytes 4 v h4]

lemma alistGet_insert_self {V : Type} (k : String) (v : V) (l : List (String × V)) :
    alistGet k (alistInsert k v l) = some v := by
  induction l with
  | nil => simp [alistInsert, alistGet]
  | cons p rest ih =>
    obtain ⟨k', v'⟩ := p
    by_cases h : k' = k <;> simp [alistInsert, alistGet, h, ih]

lemma alistGet_insert_ne {V : Type} {q k : String} (h : q ≠ k) (v : V)
    (l : List (String × V)) :
    alistGet q (alistInsert k v l) = alistGet q l := by
  induction l with
  | nil => simp [alistInsert, alistGet, Ne.symm h]
  | cons p rest ih =>
    obtain ⟨k', v'⟩ := p
    by_cases hk : k' = k
    · subst hk
      simp [alistInsert, alistGet, Ne.symm h]
    · simp [alistInsert, alistGet, hk, ih]

/-- C4 counterexample: the claim says a buffer truncated inside the header
makes `from_nwt` return a Truncated-Data typed error; on the 4-byte buffer
holding just the magic token the code instead aborts through the slice
bounds trap (no `Result` is returned at all, modelled as `none`). -/
theorem truncated_header_no_typed_error_cex :
    from_nwt jsonDecNone magicBytes = none := by rfl

/-- C4 (amended): for every buffer that starts with the magic token but is
shorter than the 52-byte header, `from_nwt` aborts via the host
environment's out-of-range trap (modelled as `none`), rather than
returning a Truncated-Data typed error; truncation in the later sections
likewise aborts. -/
theorem truncation_aborts (jsonDec : List Nat → Option JsonData) (d : List Nat)
    (h4 : d.take 4 = magicBytes) (hlen : d.length < 52) :
    from_nwt jsonDec d = none := by
  have hlen4 : 4 ≤ d.length := by
    have := congrArg List.length h4
    simp [magicBytes] at this
    omega
  have h1 : readBytes d 0 4 = some magicBytes := by
    unfold readBytes
    rw [if_pos (by omega)]
    simpa using h4
  have h44 : readU64 d 44 = none := by
    unfold readU64 readBytes
    rw [if_neg (by omega)]
    rfl
  unfold from_nwt
  rw [h1]
  show (if magicBytes = magicBytes then Option.map Except.ok (from_nwt_body jsonDec d)
        else some (Except.error "Invalid file format")) = none
  rw [if_pos rfl]
  have hb : from_nwt_body jsonDec d = none := by
    unfold from_nwt_body
    cases hA : readU64 d 4
    · rfl
    cases hB : readU64 d 12
    · rfl
    cases hC : readU64 d 20
    · rfl
    cases hD : readU64 d 28
    · rfl
    cases hE : readU64 d 36
    · rfl
    simp only [h44]
    rfl
  rw [hb]
  rfl

/-- C4 (amended) witness at a concrete input: a 20-byte buffer that starts
with the magic token. -/
theorem truncation_aborts_witness :
    from_nwt jsonDecNone (magicBytes ++ List.replicate 16 0) = none :=
  truncation_aborts jsonDecNone (magicBytes ++ List.replicate 16 0) (by decide) (by decide)

/-- C6 counterexample: the claim says `add_variable` on an already
registered name leaves the store unchanged; on a store where variable "v"
already owns an attribute, calling `add_variable "v"` again changes the
store (it wipes the attribute list). -/
theorem add_variable_not_idempotent_cex :
    JsonData.add_variable jdVarAttr "v" ≠ jdVarAttr := by decide

/-- C6 (amended): `add_variable` unconditionally re-inserts the name with
an empty attribute list: globals and polyids are preserved, other
variables' attributes are preserved, but the named variable's attribute
list is reset to empty (so re-registration is only harmless when the
variable has no attributes yet). -/
theorem add_variable_resets (jd : JsonData) (name : String) :
    (jd.add_variable name).global_attrs = jd.global_attrs ∧
    (jd.add_variable name).polyids = jd.polyids ∧
    alistGet name (jd.add_variable name).per_variable_attrs = some [] ∧
    ∀ k, k ≠ name → alistGet k (jd.add_variable name).per_variable_attrs
        = alistGet k jd.per_variable_attrs := by
  refine ⟨rfl, rfl, alistGet_insert_self name [] jd.per_variable_attrs, ?_⟩
  intro k hk
  exact alistGet_insert_ne hk [] jd.per_variable_attrs

/-- C6 (amended) witness at the concrete store `jdVarAttr`. -/
theorem add_variable_resets_witness :
    (JsonData.add_variable jdVarAttr "v").global_attrs = jdVarAttr.global_attrs ∧
    (JsonData.add_variable jdVarAttr "v").polyids = jdVarAttr.polyids ∧
    alistGet "v" (JsonData.add_variable jdVarAttr "v").per_variable_attrs = some [] ∧
    alistGet "w" (JsonData.add_variable jdVarAttr "v").per_variable_attrs
      = alistGet "w" jdVarAttr.per_variable_attrs := by
  obtain ⟨h1, h2, h3, h4⟩ := add_variable_resets jdVarAttr "v"
  exact ⟨h1, h2, h3, h4 "w" (by decide)⟩

/-- C7: for every buffer of at least 4 bytes whose first 4 bytes are not
the magic token, `from_nwt` fails with the Format-Mismatch error; the
result is one fixed error value whatever bytes follow the first 4, so none
of the six header fields is read. -/
theorem magic_rejection (jsonDec : List Nat → Option JsonData) (pre rest : List Nat)
    (h4 : pre.length = 4) (hm : pre ≠ magicBytes) :
    from_nwt jsonDec (pre ++ rest) = some (Except.error "Invalid file format") := by
  have h1 : readBytes (pre ++ rest) 0 4 = some pre := by
    have hdrop : (pre ++ rest).drop 0 = pre ++ rest := by simp
    exact readBytes_eq_of_drop hdrop h4 (by simp [h4])
  unfold from_nwt
  rw [h1]
  show (if pre = magicBytes then Option.map Except.ok (from_nwt_body jsonDec (pre ++ rest))
        else some (Except.error "Invalid file format"))
      = some (Except.error "Invalid file format")
  rw [if_neg hm]

/-- C7 witness at a concrete input: a 4-byte all-zero buffer followed by
one extra byte. -/
theorem magic_rejection_witness :
    from_nwt jsonDecNone ([0, 0, 0, 0] ++ [7])
      = some (Except.error "Invalid file format") :=
  magic_rejection jsonDecNone [0, 0, 0, 0] [7] (by decide) (by decide)

/-- C8 counterexample: the claim says a dense source without the required
"polyid" variable yields a Missing-Required-Field typed error; the code
instead unwraps the failed lookup and aborts (modelled as `none`), so no
typed failure reaches the caller. -/
theorem missing_polyid_no_typed_error_cex :
    from_weight_file ncMissingPolyid = none := by rfl

/-- C8 (amended): whenever the attribute harvest raises no error and the
required region-id variable "polyid" is absent, `from_weight_file` aborts
via an `unwrap` panic (modelled as `none`): the caller gets neither a
typed Missing-Required-Field error nor a partial model. -/
theorem missing_polyid_aborts (nc : NetcdfFile) (jd1 jd2 : JsonData)
    (hg : harvestGlobals nc.attributes JsonData.new = some (Except.ok jd1))
    (hv : harvestVars nc.vars jd1 = some (Except.ok jd2))
    (hp : nc.polyidVar = none) :
    from_weight_file nc = none := by
  unfold from_weight_file
  simp only [hg, hv, hp]

/-- C8 (amended) witness at a concrete dense source with one global
attribute and no "polyid" variable. -/
theorem missing_polyid_aborts_witness :
    from_weight_file ncMissingPolyidAttr = none :=
  missing_polyid_aborts ncMissingPolyidAttr
    (JsonData.new.add_global_attr "title" "t") (JsonData.new.add_global_attr "title" "t")
    (by rfl) (by rfl) (by rfl)

/-- C5 counterexample: the claim says `open` returns the built model even
when persisting the cache fails; on the dense source `ncEx` (on which
ingestion succeeds, producing `mEx`) with a failing cache-file creation,
`open` instead returns the propagated serialization error. -/
theorem open_persist_failure_cex :
    openFile [] ncEx false "disk full" jsonDecNone
        = some (Except.error "Failed to open file for serialization: disk full") ∧
      from_weight_file ncEx = some (Except.ok mEx) := by
  constructor <;> rfl

/-- C5 (amended): on a dense-source path (no magic token) where ingestion
succeeds, a failure to create the sibling cache file is propagated by the
`?` operator: `open` returns the serialization error, not the built
model. -/
theorem open_propagates_persist_failure (contents : List Nat) (nc : NetcdfFile)
    (ioErr : String) (a : NextWeightFile) (jsonDec : List Nat → Option JsonData)
    (hmagic : contents.take 4 ++ List.replicate (4 - contents.length) 0 ≠ magicBytes)
    (hok : from_weight_file nc = some (Except.ok a)) :
    openFile contents nc false ioErr jsonDec
      = some (Except.error ("Failed to open file for serialization: " ++ ioErr)) := by
  unfold openFile
  rw [if_neg hmagic, hok]
  rfl

/-- C5 (amended) witness at the concrete source `ncEx` and an empty file. -/
theorem open_propagates_persist_failure_witness :
    openFile [] ncEx false "e2" jsonDecNone
      = some (Except.error ("Failed to open file for serialization: " ++ "e2")) :=
  open_propagates_persist_failure [] ncEx "e2" mEx jsonDecNone (by decide) (by rfl)

lemma buildLookupGo_length (es : List PolyidEntry) (k : Nat) :
    (buildLookupGo es k).length = es.length := by
  induction es generalizing k with
  | nil => rfl
  | cons e es ih => simp [buildLookupGo, ih]

lemma buildLookupGo_snd (es : List PolyidEntry) (k : Nat) :
    (buildLookupGo es k).map Prod.snd = es.map (fun e => e.data.length) := by
  induction es generalizing k with
  | nil => rfl
  | cons e es ih => simp [buildLookupGo, ih]

lemma buildLookupGo_get (es : List PolyidEntry) (k i : Nat)
    (hi : i < (buildLookupGo es k).length) (hi' : i < es.length) :
    (buildLookupGo es k).get ⟨i, hi⟩
      = (k + ((es.take i).map (fun e => e.data.length)).sum,
         ((es.get ⟨i, hi'⟩).data).length) := by
  induction es generalizing k i with
  | nil => simp at hi'
  | cons e es ih =>
    cases i with
    | zero => simp [buildLookupGo]
    | succ i =>
      have hi2' : i < es.length := by simpa using hi'
      have hi2 : i < (buildLookupGo es (k + e.data.length)).length := by
        rw [buildLookupGo_length]
        exact hi2'
      have hrec := ih (k + e.data.length) i hi2 hi2'
      simp only [buildLookupGo, List.get_cons_succ, hrec, List.take_succ_cons,
        List.map_cons, List.sum_cons]
      rw [Nat.add_assoc]

/-- C3: the lookup table built from an ordered sequence of Region Entries
has one (offset, count) pair per region in region order; the first offset
is 0, entry i's count is the length of region i's point list, and entry
i's offset is the sum of the counts of the entries before it. -/
theorem lookup_table_offsets (entries : List PolyidEntry) :
    (buildLookupTable entries).length = entries.length ∧
    (∀ h0 : 0 < (buildLookupTable entries).length,
      ((buildLookupTable entries).get ⟨0, h0⟩).1 = 0) ∧
    ∀ i, ∀ hi : i < (buildLookupTable entries).length, ∀ hi' : i < entries.length,
      ((buildLookupTable entries).get ⟨i, hi⟩).2 = ((entries.get ⟨i, hi'⟩).data).length ∧
      ((buildLookupTable entries).get ⟨i, hi⟩).1
        = (((buildLookupTable entries).take i).map Prod.snd).sum := by
  refine ⟨buildLookupGo_length entries 0, ?_, ?_⟩
  · intro h0
    have h0' : 0 < entries.length := by
      simp only [buildLookupTable, buildLookupGo_length] at h0
      exact h0
    simp only [buildLookupTable] at h0 ⊢
    rw [buildLookupGo_get entries 0 0 h0 h0']
    simp
  · intro i hi hi'
    simp only [buildLookupTable] at hi ⊢
    rw [buildLookupGo_get entries 0 i hi hi']
    refine ⟨rfl, ?_⟩
    have hmt : ((buildLookupTable entries).take i).map Prod.snd
        = ((buildLookupTable entries).map Prod.snd).take i := List.map_take _ _ _
    simp only [buildLookupTable] at hmt ⊢
    rw [hmt, buildLookupGo_snd, ← List.map_take, Nat.zero_add]

/-- C3 witness at the two-region model of the concrete scenario, index 1. -/
theorem lookup_table_offsets_witness :
    ((buildLookupTable mEx.polyid_gridpoints).get ⟨1, by decide⟩).2
        = ((mEx.polyid_gridpoints.get ⟨1, by decide⟩).data).length ∧
      ((buildLookupTable mEx.polyid_gridpoints).get ⟨1, by decide⟩).1
        = (((buildLookupTable mEx.polyid_gridpoints).take 1).map Prod.snd).sum :=
  (lookup_table_offsets mEx.polyid_gridpoints).2.2 1 (by decide) (by decide)

lemma take_of_drop {d pre rest : List Nat} {co n : Nat}
    (h : d.drop co = pre ++ rest) (hn : pre.length = n) :
    (d.drop co).take n = pre := by
  rw [h, List.take_left' hn]

/-- C9: for every Aggregate Model, the serialized buffer starts with the
magic "NEWT" followed by six 8-byte little-endian fields in the fixed
order metadata-blob length, region (polyid) count, grid row count, grid
column count, metadata-blob offset (always 52), lookup-table offset
(52 plus the metadata-blob length). -/
theorem header_layout (jsonEnc : JsonData → List Nat) (m : NextWeightFile) :
    (serialize_bytes jsonEnc m).take 4 = magicBytes ∧
    ((serialize_bytes jsonEnc m).drop 4).take 8
        = toLeBytes 8 (jsonEnc m.json_data).length ∧
    ((serialize_bytes jsonEnc m).drop 12).take 8
        = toLeBytes 8 m.json_data.polyids.length ∧
    ((serialize_bytes jsonEnc m).drop 20).take 8 = toLeBytes 8 m.lat_len ∧
    ((serialize_bytes jsonEnc m).drop 28).take 8 = toLeBytes 8 m.lon_len ∧
    ((serialize_bytes jsonEnc m).drop 36).take 8 = toLeBytes 8 52 ∧
    ((serialize_bytes jsonEnc m).drop 44).take 8
        = toLeBytes 8 (52 + (jsonEnc m.json_data).length) := by
  have h0 : (serialize_bytes jsonEnc m).drop 0
      = magicBytes ++ (toLeBytes 8 (jsonEnc m.json_data).length
        ++ (toLeBytes 8 m.json_data.polyids.length
        ++ (toLeBytes 8 m.lat_len
        ++ (toLeBytes 8 m.lon_len
        ++ (toLeBytes 8 52
        ++ (toLeBytes 8 (52 + (jsonEnc m.json_data).length)
        ++ (jsonEnc m.json_data
        ++ (encodeLookup m.lookup_table
        ++ encodeGridpoints m.polyid_gridpoints)))))))) := by
    simp [serialize_bytes, List.append_assoc]
  have h4 := drop_of_drop h0 (show magicBytes.length = 4 from rfl)
  rw [Nat.zero_add] at h4
  have h12 := drop_of_drop h4 (toLeBytes_length 8 _)
  norm_num at h12
  have h20 := drop_of_drop h12 (toLeBytes_length 8 _)
  norm_num at h20
  have h28 := drop_of_drop h20 (toLeBytes_length 8 _)
  norm_num at h28
  have h36 := drop_of_drop h28 (toLeBytes_length 8 _)
  norm_num at h36
  have h44 := drop_of_drop h36 (toLeBytes_length 8 _)
  norm_num at h44
  refine ⟨?_, ?_, ?_, ?_, ?_, ?_, ?_⟩
  · have := take_of_drop h0 (show magicBytes.length = 4 from rfl)
    simpa using this
  · exact take_of_drop h4 (toLeBytes_length 8 _)
  · exact take_of_drop h12 (toLeBytes_length 8 _)
  · exact take_of_drop h20 (toLeBytes_length 8 _)
  · exact take_of_drop h28 (toLeBytes_length 8 _)
  · exact take_of_drop h36 (toLeBytes_length 8 _)
  · exact take_of_drop h44 (toLeBytes_length 8 _)

lemma extractRowGo_eq (lonLen fill r latLen : Nat) (latVals lonVals slice : List Nat)
    (hlat : latVals.length = latLen) (hlon : lonVals.length = lonLen)
    (hslice : slice.length = latLen * lonLen) (hr : r < latLen) :
    ∀ cols acc, (∀ c ∈ cols, c < lonLen) →
      extractRowGo lonLen fill r latVals lonVals slice cols acc
        = some (acc ++ cols.filterMap (fun c =>
            if f32Eq (slice.getD (r * lonLen + c) 0) fill then none
            else some { latIdx := r, lonIdx := c, lat := latVals.getD r 0,
                        lon := lonVals.getD c 0,
                        weight := slice.getD (r * lonLen + c) 0 })) := by
  intro cols
  induction cols with
  | nil => intro acc _; simp [extractRowGo]
  | cons c cs ih =>
    intro acc hc
    have hcL : c < lonLen := hc c (List.mem_cons_self c cs)
    have hcs : ∀ x ∈ cs, x < lonLen := fun x hx => hc x (List.mem_cons_of_mem c hx)
    have hidx : r * lonLen + c < slice.length := by
      rw [hslice]
      calc r * lonLen + c < r * lonLen + lonLen := by omega
        _ = (r + 1) * lonLen := by ring
        _ ≤ latLen * lonLen := Nat.mul_le_mul_right lonLen hr
    have hget : slice.get? (r * lonLen + c) = some (slice.getD (r * lonLen + c) 0) := by
      rw [List.get?_eq_getElem?, List.getElem?_eq_getElem hidx, List.getD_eq_getElem slice 0 hidx]
    have hlatget : latVals.get? r = some (latVals.getD r 0) := by
      have hrl : r < latVals.length := by omega
      rw [List.get?_eq_getElem?, List.getElem?_eq_getElem hrl, List.getD_eq_getElem latVals 0 hrl]
    have hlonget : lonVals.get? c = some (lonVals.getD c 0) := by
      have hcl : c < lonVals.length := by omega
      rw [List.get?_eq_getElem?, List.getElem?_eq_getElem hcl, List.getD_eq_getElem lonVals 0 hcl]
    cases hfe : f32Eq (slice.getD (r * lonLen + c) 0) fill with
    | true =>
      simp only [extractRowGo, hget, hfe, if_true, List.filterMap_cons, ih acc hcs]
    | false =>
      simp only [extractRowGo, hget, hfe, if_false, hlatget, hlonget, List.filterMap_cons,
        ih _ hcs, List.append_assoc, List.singleton_append]
      simp [hfe]

lemma extractRegionGo_eq (lonLen fill latLen : Nat) (latVals lonVals slice : List Nat)
    (hlat : latVals.length = latLen) (hlon : lonVals.length = lonLen)
    (hslice : slice.length = latLen * lonLen) :
    ∀ rows acc, (∀ r ∈ rows, r < latLen) →
      extractRegionGo lonLen fill latVals lonVals slice rows acc
        = some (acc ++ rows.flatMap (fun r =>
            (List.range lonLen).filterMap (fun c =>
              if f32Eq (slice.getD (r * lonLen + c) 0) fill then none
              else some { latIdx := r, lonIdx := c, lat := latVals.getD r 0,
                          lon := lonVals.getD c 0,
                          weight := slice.getD (r * lonLen + c) 0 }))) := by
  intro rows
  induction rows with
  | nil => intro acc _; simp [extractRegionGo]
  | cons r rs ih =>
    intro acc hrows
    have hrL : r < latLen := hrows r (List.mem_cons_self r rs)
    have hrs : ∀ x ∈ rs, x < latLen := fun x hx => hrows x (List.mem_cons_of_mem r hx)
    have hrow := extractRowGo_eq lonLen fill r latLen latVals lonVals slice hlat hlon hslice hrL
      (List.range lonLen) acc (fun c hcm => List.mem_range.mp hcm)
    simp only [extractRegionGo, hrow, ih _ hrs, List.flatMap_cons, List.append_assoc]

/-- C2: on a dense row-major grid of `latLen * lonLen` f32 cells with
coordinate arrays of matching lengths, the extraction loop of
`from_weight_file` succeeds and produces exactly one point
(r, c, latVals[r], lonVals[c], G[r][c]) for each cell whose value differs
from the fill value under exact (IEEE) f32 equality, in row-major order
and nothing else; in particular a region with no non-fill cells yields an
empty Region Entry rather than an error. -/
theorem sparse_extraction (latLen lonLen fill : Nat) (latVals lonVals slice : List Nat)
    (hlat : latVals.length = latLen) (hlon : lonVals.length = lonLen)
    (hslice : slice.length = latLen * lonLen) :
    extractRegion latLen lonLen fill latVals lonVals slice
        = some (extractRegionSpec latLen lonLen fill latVals lonVals slice) ∧
      ((∀ r, r < latLen → ∀ c, c < lonLen →
          f32Eq (slice.getD (r * lonLen + c) 0) fill = true) →
        extractRegion latLen lonLen fill latVals lonVals slice = some []) := by
  have h1 := extractRegionGo_eq lonLen fill latLen latVals lonVals slice hlat hlon hslice
    (List.range latLen) [] (fun r hrm => List.mem_range.mp hrm)
  constructor
  · rw [extractRegion, h1]
    simp [extractRegionSpec]
  · intro hall
    rw [extractRegion, h1]
    simp only [List.nil_append, Option.some.injEq]
    apply List.eq_nil_iff_forall_not_mem.mpr
    intro x hx
    rw [List.mem_flatMap] at hx
    obtain ⟨r, hrm, hx⟩ := hx
    rw [List.mem_filterMap] at hx
    obtain ⟨c, hcm, hfc⟩ := hx
    rw [hall r (List.mem_range.mp hrm) c (List.mem_range.mp hcm)] at hfc
    simp at hfc

/-- C2 witness: the concrete-scenario region 0 grid (2x2, fill pattern
100, values [[fill, 5], [3, fill]]). -/
theorem sparse_extraction_witness :
    extractRegion 2 2 100 [10, 11] [20, 21] [100, 5, 3, 100]
      = some (extractRegionSpec 2 2 100 [10, 11] [20, 21] [100, 5, 3, 100]) :=
  (sparse_extraction 2 2 100 [10, 11] [20, 21] [100, 5, 3, 100]
    (by decide) (by decide) (by decide)).1

lemma rawGridpointsGo_eq (l : List PolyidEntry) :
    rawGridpointsGo l = (l.map PolyidEntry.data).flatten := by
  induction l with
  | nil => rfl
  | cons e es ih => simp [rawGridpointsGo, ih]

lemma from_weight_file_lookup {nc : NetcdfFile} {m : NextWeightFile}
    (h : from_weight_file nc = some (Except.ok m)) :
    m.lookup_table = buildLookupTable m.polyid_gridpoints := by
  unfold from_weight_file at h
  repeat' split at h
  all_goals first
    | exact Option.noConfusion h
    | (injection h with h1
       exact Except.noConfusion h1)
    | (injection h with h1
       injection h1 with h2
       subst h2
       rfl)

lemma drop_length_add {α : Type} (xs ys : List α) (n : Nat) :
    (xs ++ ys).drop (xs.length + n) = ys.drop n := by
  rw [← List.drop_drop, List.drop_left]

lemma flatten_slice_core (entries : List PolyidEntry) :
    ∀ i, ∀ hi' : i < entries.length,
      (((entries.map PolyidEntry.data).flatten.drop
          (((entries.take i).map (fun e => e.data.length)).sum)).take
          ((entries.get ⟨i, hi'⟩).data).length)
        = (entries.get ⟨i, hi'⟩).data := by
  induction entries with
  | nil => intro i hi'; simp at hi'
  | cons e es ih =>
    intro i hi'
    cases i with
    | zero => simp [List.take_left]
    | succ i =>
      have hi2 : i < es.length := by simpa using hi'
      simp only [List.map_cons, List.flatten_cons, List.take_succ_cons, List.sum_cons,
        List.get_cons_succ]
      rw [drop_length_add]
      exact ih i hi2

lemma buildLookupGo_getD (es : List PolyidEntry) (k i : Nat) (hi' : i < es.length) :
    (buildLookupGo es k).getD i (0, 0)
      = (k + ((es.take i).map (fun e => e.data.length)).sum,
         ((es.getD i ⟨[]⟩).data).length) := by
  have hiL : i < (buildLookupGo es k).length := by
    rw [buildLookupGo_length]
    exact hi'
  rw [List.getD_eq_getElem _ _ hiL, List.getD_eq_getElem _ _ hi']
  exact buildLookupGo_get es k i hiL hi'

lemma flatten_slice_core_getD (entries : List PolyidEntry) (i : Nat)
    (hi' : i < entries.length) :
    (((entries.map PolyidEntry.data).flatten.drop
        (((entries.take i).map (fun e => e.data.length)).sum)).take
        ((entries.getD i ⟨[]⟩).data).length)
      = (entries.getD i ⟨[]⟩).data := by
  rw [List.getD_eq_getElem _ _ hi']
  exact flatten_slice_core entries i hi'

/-- C10: `get_raw_gridpoints` returns the concatenation of the regions'
point lists in region order, and for a model built by `from_weight_file`
the slice of that vector at lookup_table[i].offset of length
lookup_table[i].count is exactly region i's point list. -/
theorem raw_gridpoints_flatten (m : NextWeightFile) :
    get_raw_gridpoints m = (m.polyid_gridpoints.map PolyidEntry.data).flatten ∧
    ∀ nc, from_weight_file nc = some (Except.ok m) →
      ∀ i, i < m.lookup_table.length → i < m.polyid_gridpoints.length →
        ((get_raw_gridpoints m).drop (m.lookup_table.getD i (0, 0)).1).take
            (m.lookup_table.getD i (0, 0)).2
          = (m.polyid_gridpoints.getD i ⟨[]⟩).data := by
  refine ⟨rawGridpointsGo_eq m.polyid_gridpoints, ?_⟩
  intro nc h i _ hi'
  have hl := from_weight_file_lookup h
  rw [get_raw_gridpoints, rawGridpointsGo_eq, hl, buildLookupTable,
    buildLookupGo_getD m.polyid_gridpoints 0 i hi', Nat.zero_add]
  exact flatten_slice_core_getD m.polyid_gridpoints i hi'

/-- C10 witness at the two-region model of the concrete scenario, built by
`from_weight_file` from `ncEx`, index 0. -/
theorem raw_gridpoints_flatten_witness :
    get_raw_gridpoints mEx = (mEx.polyid_gridpoints.map PolyidEntry.data).flatten ∧
    ((get_raw_gridpoints mEx).drop ((mEx.lookup_table.getD 0 (0, 0)).1)).take
        ((mEx.lookup_table.getD 0 (0, 0)).2)
      = (mEx.polyid_gridpoints.getD 0 ⟨[]⟩).data := by
  obtain ⟨h1, h2⟩ := raw_gridpoints_flatten mEx
  exact ⟨h1, h2 ncEx (by rfl) 0 (by decide) (by decide)⟩

lemma encodeLookup_length (l : List (Nat × Nat)) :
    (encodeLookup l).length = 16 * l.length := by
  induction l with
  | nil => rfl
  | cons p rest ih =>
    obtain ⟨o, c⟩ := p
    simp [encodeLookup, toLeBytes_length, ih]
    omega

lemma encodePointList_length (l : List GridPoint) :
    ((l.map encodePoint).flatten).length = 20 * l.length := by
  induction l with
  | nil => rfl
  | cons p rest ih =>
    simp [encodePoint, toLeBytes_length, ih]
    omega

lemma parseLookup_encode (l : List (Nat × Nat))
    (hb : ∀ p ∈ l, p.1 < 2 ^ 64 ∧ p.2 < 2 ^ 64) :
    parseLookup l.length (encodeLookup l) = l := by
  induction l with
  | nil => rfl
  | cons p rest ih =>
    obtain ⟨o, c⟩ := p
    have ho : o < 256 ^ 8 := by
      rw [show (256 : Nat) ^ 8 = 2 ^ 64 by norm_num]
      exact (hb (o, c) (List.mem_cons_self _ _)).1
    have hc : c < 256 ^ 8 := by
      rw [show (256 : Nat) ^ 8 = 2 ^ 64 by norm_num]
      exact (hb (o, c) (List.mem_cons_self _ _)).2
    have hbr : ∀ q ∈ rest, q.1 < 2 ^ 64 ∧ q.2 < 2 ^ 64 :=
      fun q hq => hb q (List.mem_cons_of_mem _ hq)
    have hassoc : encodeLookup ((o, c) :: rest)
        = toLeBytes 8 o ++ (toLeBytes 8 c ++ encodeLookup rest) := by
      simp [encodeLookup, List.append_assoc]
    have ht1 : (toLeBytes 8 o ++ (toLeBytes 8 c ++ encodeLookup rest)).take 8
        = toLeBytes 8 o := List.take_left' (toLeBytes_length 8 o)
    have hd8 : (toLeBytes 8 o ++ (toLeBytes 8 c ++ encodeLookup rest)).drop 8
        = toLeBytes 8 c ++ encodeLookup rest := List.drop_left' (toLeBytes_length 8 o)
    have hd16 : (toLeBytes 8 o ++ (toLeBytes 8 c ++ encodeLookup rest)).drop 16
        = encodeLookup rest := by
      show (toLeBytes 8 o ++ (toLeBytes 8 c ++ encodeLookup rest)).drop (8 + 8)
          = encodeLookup rest
      rw [← List.drop_drop, hd8, List.drop_left' (toLeBytes_length 8 c)]
    simp only [List.length_cons, parseLookup, hassoc, ht1, hd8, hd16,
      List.take_left' (toLeBytes_length 8 c), fromLeBytes_toLeBytes 8 o ho,
      fromLeBytes_toLeBytes 8 c hc, ih hbr]

lemma readPoint_encode {d rest : List Nat} {co : Nat} (p : GridPoint)
    (h : d.drop co = encodePoint p ++ rest) (hco : co ≤ d.length) (hb : ptBounded p) :
    readPoint d co = some p := by
  obtain ⟨h1, h2, h3, h4, h5⟩ := hb
  have hassoc : encodePoint p ++ rest
      = toLeBytes 4 p.latIdx ++ (toLeBytes 4 p.lonIdx ++ (toLeBytes 4 p.lat
        ++ (toLeBytes 4 p.lon ++ (toLeBytes 4 p.weight ++ rest)))) := by
    simp [encodePoint, List.append_assoc]
  rw [hassoc] at h
  have hlen : co + 20 ≤ d.length := by
    have hlh := congrArg List.length h
    simp [toLeBytes_length] at hlh
    omega
  have r0 := readU32_eq_of_drop h h1 (by omega)
  have hd4 := drop_of_drop h (toLeBytes_length 4 _)
  have r4 := readU32_eq_of_drop hd4 h2 (by omega)
  have hd8 := drop_of_drop hd4 (toLeBytes_length 4 _)
  norm_num at hd8
  have r8 := readU32_eq_of_drop hd8 h3 (by omega)
  have hd12 := drop_of_drop hd8 (toLeBytes_length 4 _)
  norm_num at hd12
  have r12 := readU32_eq_of_drop hd12 h4 (by omega)
  have hd16 := drop_of_drop hd12 (toLeBytes_length 4 _)
  norm_num at hd16
  have r16 := readU32_eq_of_drop hd16 h5 (by omega)
  unfold readPoint
  rw [r0, r4, r8, r12, r16]

lemma readPoints_encode {d : List Nat} (pts : List GridPoint) {rest : List Nat} {co : Nat}
    (h : d.drop co = (pts.map encodePoint).flatten ++ rest) (hco : co ≤ d.length)
    (hb : ∀ p ∈ pts, ptBounded p) :
    readPoints d co pts.length = some pts := by
  induction pts generalizing co with
  | nil => rfl
  | cons p ps ih =>
    have hassoc : (((p :: ps).map encodePoint).flatten) ++ rest
        = encodePoint p ++ ((ps.map encodePoint).flatten ++ rest) := by
      simp [List.append_assoc]
    rw [hassoc] at h
    have hp := readPoint_encode p h hco (hb p (List.mem_cons_self _ _))
    have hplen : (encodePoint p).length = 20 := by simp [encodePoint, toLeBytes_length]
    have hd := drop_of_drop h hplen
    have hco20 : co + 20 ≤ d.length := by
      have hlh := congrArg List.length h
      simp [toLeBytes_length, encodePoint] at hlh
      omega
    have hrec := ih hd hco20 (fun q hq => hb q (List.mem_cons_of_mem _ hq))
    simp only [List.length_cons, readPoints, hp, hrec]

lemma readRegions_encode {d : List Nat} (gps : List PolyidEntry) {rest : List Nat} {co : Nat}
    (h : d.drop co = encodeGridpoints gps ++ rest) (hco : co ≤ d.length)
    (hb : ∀ e ∈ gps, ∀ p ∈ e.data, ptBounded p) :
    readRegions d co (gps.map (fun e => e.data.length)) = some gps := by
  induction gps generalizing co with
  | nil => rfl
  | cons e es ih =>
    have hassoc : encodeGridpoints (e :: es) ++ rest
        = (e.data.map encodePoint).flatten ++ (encodeGridpoints es ++ rest) := by
      simp [encodeGridpoints, encodeRegion, List.append_assoc]
    rw [hassoc] at h
    have hpts := readPoints_encode e.data h hco (hb e (List.mem_cons_self _ _))
    have hd := drop_of_drop h (encodePointList_length e.data)
    have hco2 : co + 20 * e.data.length ≤ d.length := by
      have hlh := congrArg List.length h
      simp only [List.length_drop, List.length_append, encodePointList_length] at hlh
      omega
    have hrec := ih hd hco2 (fun q hq => hb q (List.mem_cons_of_mem _ hq))
    simp only [List.map_cons, readRegions, hpts, hrec]

/-- C1: round-trip identity.  For every Aggregate Model satisfying the
data-model invariants of the spec (region-id count = lookup-table entry
count = point-list count, lookup counts = point-list lengths) and the
machine-integer range invariants of the Rust types (u64 header and table
fields, u32/f32 point fields, metadata blob below 2^64 - 52 bytes), and
for any serde_json collaborator that inverts itself on the model's
metadata, decoding the serialized buffer with `from_nwt` returns exactly
the same model: same metadata store (global attributes, per-variable
attributes, polyids in order), same grid dimensions, same lookup table and
same Region Entries point-for-point. -/
theorem roundtrip_identity (jsonEnc : JsonData → List Nat)
    (jsonDec : List Nat → Option JsonData) (m : NextWeightFile)
    (hjson : jsonDec (jsonEnc m.json_data) = some m.json_data)
    (hjl : 52 + (jsonEnc m.json_data).length < 2 ^ 64)
    (hnp : m.json_data.polyids.length = m.lookup_table.length)
    (hnp64 : m.json_data.polyids.length < 2 ^ 64)
    (hlat : m.lat_len < 2 ^ 64) (hlon : m.lon_len < 2 ^ 64)
    (hlk : ∀ p ∈ m.lookup_table, p.1 < 2 ^ 64 ∧ p.2 < 2 ^ 64)
    (hcnt : m.lookup_table.map Prod.snd = m.polyid_gridpoints.map (fun e => e.data.length))
    (hpt : ∀ e ∈ m.polyid_gridpoints, ∀ p ∈ e.data, ptBounded p) :
    from_nwt jsonDec (serialize_bytes jsonEnc m) = some (Except.ok m) := by
  have h0 : (serialize_bytes jsonEnc m).drop 0
      = magicBytes ++ (toLeBytes 8 (jsonEnc m.json_data).length
        ++ (toLeBytes 8 m.json_data.polyids.length
        ++ (toLeBytes 8 m.lat_len
        ++ (toLeBytes 8 m.lon_len
        ++ (toLeBytes 8 52
        ++ (toLeBytes 8 (52 + (jsonEnc m.json_data).length)
        ++ (jsonEnc m.json_data
        ++ (encodeLookup m.lookup_table
        ++ encodeGridpoints m.polyid_gridpoints)))))))) := by
    simp [serialize_bytes, List.append_assoc]
  have hLenc : (encodeLookup m.lookup_table).length = 16 * m.lookup_table.length :=
    encodeLookup_length m.lookup_table
  have blen : (serialize_bytes jsonEnc m).length
      = 52 + (jsonEnc m.json_data).length + 16 * m.lookup_table.length
        + (encodeGridpoints m.polyid_gridpoints).length := by
    have hlh := congrArg List.length h0
    simp only [List.length_drop, List.length_append, toLeBytes_length, hLenc] at hlh
    simp only [magicBytes, List.length_cons, List.length_nil] at hlh
    omega
  have h4 := drop_of_drop h0 (show magicBytes.length = 4 from rfl)
  rw [Nat.zero_add] at h4
  have h12 := drop_of_drop h4 (toLeBytes_length 8 _)
  norm_num at h12
  have h20 := drop_of_drop h12 (toLeBytes_length 8 _)
  norm_num at h20
  have h28 := drop_of_drop h20 (toLeBytes_length 8 _)
  norm_num at h28
  have h36 := drop_of_drop h28 (toLeBytes_length 8 _)
  norm_num at h36
  have h44 := drop_of_drop h36 (toLeBytes_length 8 _)
  norm_num at h44
  have h52 := drop_of_drop h44 (toLeBytes_length 8 _)
  norm_num at h52
  have hr4 := readU64_eq_of_drop h4 (by omega) (by omega)
  have hr12 := readU64_eq_of_drop h12 hnp64 (by omega)
  have hr20 := readU64_eq_of_drop h20 hlat (by omega)
  have hr28 := readU64_eq_of_drop h28 hlon (by omega)
  have hr36 := readU64_eq_of_drop h36 (by norm_num) (by omega)
  have hr44 := readU64_eq_of_drop h44 hjl (by omega)
  have hjread : readBytes (serialize_bytes jsonEnc m) 52 (jsonEnc m.json_data).length
      = some (jsonEnc m.json_data) := readBytes_eq_of_drop h52 rfl (by omega)
  have h52J := drop_of_drop h52 rfl
  have hlkread : readBytes (serialize_bytes jsonEnc m) (52 + (jsonEnc m.json_data).length)
      (m.json_data.polyids.length * 16) = some (encodeLookup m.lookup_table) := by
    apply readBytes_eq_of_drop h52J (by omega) (by omega)
  have hparse : parseLookup m.json_data.polyids.length (encodeLookup m.lookup_table)
      = m.lookup_table := by
    rw [hnp]
    exact parseLookup_encode m.lookup_table hlk
  have hGdrop : (serialize_bytes jsonEnc m).drop
      (52 + (jsonEnc m.json_data).length + m.json_data.polyids.length * 16)
      = encodeGridpoints m.polyid_gridpoints ++ [] := by
    have := drop_of_drop h52J (show (encodeLookup m.lookup_table).length
      = m.json_data.polyids.length * 16 by omega)
    rw [this, List.append_nil]
  have hregions : readRegions (serialize_bytes jsonEnc m)
      (52 + (jsonEnc m.json_data).length + m.json_data.polyids.length * 16)
      (m.lookup_table.map Prod.snd) = some m.polyid_gridpoints := by
    rw [hcnt]
    exact readRegions_encode m.polyid_gridpoints hGdrop (by omega) hpt
  have hmagic : readBytes (serialize_bytes jsonEnc m) 0 4 = some magicBytes :=
    readBytes_eq_of_drop h0 rfl (by omega)
  unfold from_nwt
  rw [hmagic]
  show (if magicBytes = magicBytes then
          Option.map Except.ok (from_nwt_body jsonDec (serialize_bytes jsonEnc m))
        else some (Except.error "Invalid file format")) = some (Except.ok m)
  rw [if_pos rfl]
  have hbody : from_nwt_body jsonDec (serialize_bytes jsonEnc m) = some m := by
    simp only [from_nwt_body, hr4, hr12, hr20, hr28, hr36, hr44, Option.bind_eq_bind,
      Option.some_bind, hjread, hjson, hlkread, hparse, hregions]
    rfl
  rw [hbody]
  rfl

/-- C1 witness: the concrete two-region model `mEx` with the concrete
serde_json stand-ins `jsonEncEx`/`jsonDecEx`. -/
theorem roundtrip_identity_witness :
    from_nwt jsonDecEx (serialize_bytes jsonEncEx mEx) = some (Except.ok mEx) :=
  roundtrip_identity jsonEncEx jsonDecEx mEx (by rfl) (by decide) (by decide)
    (by decide) (by decide) (by decide) (by decide) (by decide) (by decide)

end NWT
